import Mathlib

/-!
Verification of the mdbook-graphviz preprocessor (src/preprocessor.rs,
src/renderer.rs) against its natural-language specification.

The embedding is shallow: strings are lists of Unicode scalar values
(`Char`), the pulldown-cmark event stream is an inductive `Event` type,
the per-chapter scan is an explicit fold over events, and the external
renderer / markdown parser / markdown serializer collaborators are
oracles passed as function parameters.  Fallible code returns `Except`;
a Rust panic (the `assert_eq!` in `process_leaf_chapter`) is modelled as
a distinguished error outcome.
-/

deriving instance DecidableEq for Except

namespace MdGraphviz

/-- Strings are modelled as lists of Unicode scalar values, mirroring
Rust's `str::chars()` view of a `&str`. -/
abbrev Str := List Char

/-- Decides `lo ≤ n ∧ n ≤ hi`. -/
def between (lo n hi : Nat) : Bool := decide (lo ≤ n ∧ n ≤ hi)

/-- Model of Rust `char::is_whitespace` (the Unicode `White_Space`
property).  Faithful on the Latin-1 range (codepoints < 0x100):
0x09–0x0D, 0x20, 0x85 (NEL) and 0xA0 (NBSP).  Codepoints ≥ 0x100 are
modelled as non-whitespace (the handful of higher Unicode whitespace
codepoints is outside the fragment this development evaluates on). -/
def rustIsWhitespace (c : Char) : Bool :=
  between 0x09 c.toNat 0x0D || between 0x20 c.toNat 0x20 ||
  between 0x85 c.toNat 0x85 || between 0xA0 c.toNat 0xA0

/-- Model of Rust `char::is_alphanumeric` (`is_alphabetic ||
is_numeric`, i.e. the Unicode `Alphabetic` property together with the
`Nd`/`Nl`/`No` general categories).  Faithful on the Latin-1 range:
digits, ASCII letters, ª µ º ² ³ ¹ ¼ ½ ¾ and the Latin-1 letters
0xC0–0xD6, 0xD8–0xF6, 0xF8–0xFF.  Codepoints ≥ 0x100 are modelled as
non-alphanumeric. -/
def rustIsAlphanumeric (c : Char) : Bool :=
  between 0x30 c.toNat 0x39 || between 0x41 c.toNat 0x5A ||
  between 0x61 c.toNat 0x7A ||
  between 0xAA c.toNat 0xAA || between 0xB2 c.toNat 0xB3 ||
  between 0xB5 c.toNat 0xB5 || between 0xB9 c.toNat 0xBA ||
  between 0xBC c.toNat 0xBE || between 0xC0 c.toNat 0xD6 ||
  between 0xD8 c.toNat 0xF6 || between 0xF8 c.toNat 0xFF

/-- Model of Rust `char::to_ascii_lowercase`: maps `A`–`Z` (0x41–0x5A)
to the corresponding lowercase letter by adding 0x20, and leaves every
other character (including non-ASCII uppercase letters) unchanged. -/
def rustToAsciiLowercase (c : Char) : Char :=
  if between 0x41 c.toNat 0x5A then Char.ofNat (c.toNat + 0x20) else c

/-- Model of Rust `str::trim`: strip `char::is_whitespace` characters
from both ends. -/
def rustTrim (s : Str) : Str :=
  ((s.dropWhile rustIsWhitespace).reverse.dropWhile rustIsWhitespace).reverse

/-- The per-character action of `normalize_id` (`src/preprocessor.rs`
lines 300–313): alphanumeric characters are kept, ASCII-lowercased;
whitespace, `_` and `-` become `_`; everything else is dropped. -/
def normChar (ch : Char) : Option Char :=
  if rustIsAlphanumeric ch then some (rustToAsciiLowercase ch)
  else if rustIsWhitespace ch || ch == '_' || ch == '-' then some '_'
  else none

/-- Model of `normalize_id` (`src/preprocessor.rs` lines 300–313): a
`filter_map` of `normChar` over the characters of the input. -/
def normalize_id (content : Str) : Str := content.filterMap normChar

/-- The character set `[a-z0-9_]` the spec says `normalize` stays
inside. -/
def isOutputSafe (c : Char) : Bool :=
  between 0x61 c.toNat 0x7A || between 0x30 c.toNat 0x39 ||
  between 0x5F c.toNat 0x5F

/-- Source constant `INFO_STRING_PREFIX` (`src/preprocessor.rs` line
17): the literal trigger `"dot process"`.  (Renamed here for lexical
reasons only.) -/
def INFO_STRING_TRIGGER : Str := "dot process".toList

/-- pulldown-cmark `LinkType`; the preprocessor only constructs
`Inline`. -/
inductive LinkType where
  | Inline
deriving DecidableEq

/-- The pulldown-cmark tags the preprocessor inspects or constructs;
every other tag is collapsed into the opaque `Other`. -/
inductive Tag where
  | CodeBlock (info : Str)
  | Image (link : LinkType) (dest : Str) (title : Str)
  | Other (id : Nat)
deriving DecidableEq

/-- The pulldown-cmark events the preprocessor inspects; events it only
passes through (soft breaks, html, ...) are the opaque `Other`. -/
inductive Event where
  | Start (t : Tag)
  | End (t : Tag)
  | Text (s : Str)
  | Other (id : Nat)
deriving DecidableEq

/-- Error outcomes of the pipeline.  `MalformedBlock` models the
`assert_eq!` panic of `process_leaf_chapter` (line 140); the renderer
oracle may fail with any of the renderer-side kinds; a serializer
failure is wrapped in `SerializationFailed` (line 188). -/
inductive Err where
  | MalformedBlock
  | SpawnExhausted
  | RenderFailed (msg : Str)
  | IoFailure (msg : Str)
  | SerializationFailed (msg : Str)
deriving DecidableEq

/-- Source struct `GraphvizBlockBuilder` (`src/preprocessor.rs` lines
196–201). -/
structure GraphvizBlockBuilder where
  chapter_name : Str
  graph_name : Str
  code : Str
  path : Str
deriving DecidableEq

/-- Model of `GraphvizBlockBuilder::new` (lines 203–225): the chapter
name is trimmed; if the character at position 11 (just past the
trigger) is a space, the rest of the info string, trimmed, is the graph
name, otherwise the graph name is empty.  (The source slices bytes;
under the caller's guarantee that the info string starts with the
all-ASCII trigger, byte index `len + 1` and character index `len + 1`
coincide.) -/
def GraphvizBlockBuilder.new (info_string chapter_name path : Str) : GraphvizBlockBuilder :=
  let graph_name : Str :=
    if info_string.get? INFO_STRING_TRIGGER.length = some ' ' then
      rustTrim (info_string.drop (INFO_STRING_TRIGGER.length + 1))
    else []
  { chapter_name := rustTrim chapter_name, graph_name := graph_name, code := [], path := path }

/-- Model of `GraphvizBlockBuilder::append_code` (lines 227–229). -/
def GraphvizBlockBuilder.append_code (b : GraphvizBlockBuilder) (code : Str) :
    GraphvizBlockBuilder :=
  { b with code := b.code ++ code }

/-- Decimal rendering of a `usize`, as Rust `format!` does. -/
def natStr (n : Nat) : Str := (Nat.repr n).toList

/-- Source struct `GraphvizBlock` (`src/preprocessor.rs` lines
254–259). -/
structure GraphvizBlock where
  graph_name : Str
  image_name : Str
  code : Str
  chapter_path : Str
deriving DecidableEq

/-- Model of `GraphvizBlockBuilder::build` (lines 231–251): trims the
accumulated code and derives the artifact base name from the (already
trimmed) chapter name, the optional graph name and the index. -/
def GraphvizBlockBuilder.build (b : GraphvizBlockBuilder) (index : Nat) : GraphvizBlock :=
  let cleaned_code := rustTrim b.code
  let image_name : Str :=
    if b.graph_name ≠ [] then
      normalize_id b.chapter_name ++ '_' :: normalize_id b.graph_name ++ '_' ::
        (natStr index ++ ".generated".toList)
    else
      normalize_id b.chapter_name ++ '_' :: (natStr index ++ ".generated".toList)
  { graph_name := b.graph_name, image_name := image_name, code := cleaned_code,
    chapter_path := b.path }

/-- Model of `GraphvizBlock::file_name` (lines 295–297). -/
def GraphvizBlock.file_name (b : GraphvizBlock) : Str := b.image_name ++ ".svg".toList

/-- Model of `GraphvizBlock::image_tag` (lines 287–293): an inline
image whose destination is the file name and whose title is the graph
name. -/
def GraphvizBlock.image_tag (b : GraphvizBlock) : Tag :=
  Tag.Image LinkType.Inline b.file_name b.graph_name

/-- Model of `GraphvizBlock::tag_events` (lines 273–279). -/
def GraphvizBlock.tag_events (b : GraphvizBlock) : List Event :=
  [Event.Start b.image_tag, Event.End b.image_tag, Event.Text ("\n\n".toList)]

/-- The state threaded through `process_leaf_chapter`'s event scan:
the optional open builder and the next image index (lines 127–128). -/
structure ScanState where
  builder : Option GraphvizBlockBuilder
  image_index : Nat
deriving DecidableEq

/-- What the synchronous part of the scan produces per event: either
events to echo, or a finalized block whose rendering is dispatched and
whose `tag_events` replace it on success. -/
inductive Action where
  | emit (es : List Event)
  | render (b : GraphvizBlock)
deriving DecidableEq

/-- One step of the synchronous scan closure of `process_leaf_chapter`
(lines 131–176).  While a builder is open: text is accumulated, a
code-block end with the trigger prefix finalizes the block (the
`assert_eq!` failure for any other code-block end is modelled as the
`MalformedBlock` error), and any other event is echoed.  While no
builder is open: a code-block start with the trigger prefix opens a
builder and is suppressed; everything else is echoed. -/
def scanStep (chapter_name chapter_path : Str) (st : ScanState) (e : Event) :
    Except Err (ScanState × Action) :=
  match st.builder with
  | some builder =>
    match e with
    | Event.Text t => .ok ({ st with builder := some (builder.append_code t) }, .emit [])
    | Event.End (Tag.CodeBlock info) =>
      if INFO_STRING_TRIGGER.isPrefixOf info then
        .ok ({ builder := none, image_index := st.image_index + 1 },
          .render (builder.build st.image_index))
      else
        .error Err.MalformedBlock
    | e => .ok (st, .emit [e])
  | none =>
    match e with
    | Event.Start (Tag.CodeBlock info) =>
      if INFO_STRING_TRIGGER.isPrefixOf info then
        .ok (⟨some (GraphvizBlockBuilder.new info chapter_name chapter_path),
          st.image_index⟩, .emit [])
      else
        .ok (st, .emit [Event.Start (Tag.CodeBlock info)])
    | e => .ok (st, .emit [e])

/-- The full synchronous scan over a chapter's event stream. -/
def scanEvents (chapter_name chapter_path : Str) :
    List Event → ScanState → Except Err (List Action)
  | [], _ => .ok []
  | e :: rest, st =>
    match scanStep chapter_name chapter_path st e with
    | .error err => .error err
    | .ok (st', a) =>
      match scanEvents chapter_name chapter_path rest st' with
      | .error err => .error err
      | .ok acts => .ok (a :: acts)

/-- The finalized blocks of a scan, in the order their closing events
appeared. -/
def blocksOf (acts : List Action) : List GraphvizBlock :=
  acts.filterMap fun a =>
    match a with
    | .render b => some b
    | .emit _ => none

/-- Modelled `PathBuf::join` as separator concatenation; the pipeline
treats paths opaquely, so nothing below depends on richer join
semantics. -/
def pathJoin (a b : Str) : Str := a ++ '/' :: b

/-- The renderer collaborator (`GraphvizRenderer::render_graphviz`):
given the block's code and the output path, it succeeds or fails. -/
abbrev Renderer := Str → Str → Except Err Unit

/-- The joining phase of `process_leaf_chapter` (lines 151–156 and
180–185): render actions invoke the renderer on the block's code and
output path (`GraphvizBlock::render_graphviz`, lines 281–285) and are
replaced by the block's `tag_events`; the first error in event order is
the result. -/
def runActions (renderer : Renderer) : List Action → Except Err (List Event)
  | [] => .ok []
  | Action.emit es :: rest =>
    match runActions renderer rest with
    | .error err => .error err
    | .ok out => .ok (es ++ out)
  | Action.render b :: rest =>
    match renderer b.code (pathJoin b.chapter_path b.file_name) with
    | .error err => .error err
    | .ok _ =>
      match runActions renderer rest with
      | .error err => .error err
      | .ok out => .ok (b.tag_events ++ out)

/-- Model of `process_leaf_chapter` at the event level: scan, then
render and splice. -/
def process_leaf_events (renderer : Renderer) (chapter_name chapter_path : Str)
    (events : List Event) : Except Err (List Event) :=
  match scanEvents chapter_name chapter_path events { builder := none, image_index := 0 } with
  | .error err => .error err
  | .ok acts => runActions renderer acts

/-- The markdown parser collaborator (`pulldown_cmark::Parser`). -/
abbrev Parse := Str → List Event

/-- The markdown serializer collaborator
(`pulldown_cmark_to_cmark::fmt::cmark`); its error is a message. -/
abbrev Serialize := List Event → Except Str Str

/-- Model of `Graphviz::process_leaf_chapter` (lines 121–193): parse
the content, scan and render, serialize the rewritten events back into
the chapter's content (a serializer failure becomes
`SerializationFailed`). -/
def process_leaf_chapter (renderer : Renderer) (parse : Parse) (serialize : Serialize)
    (chapter_name chapter_path content : Str) : Except Err Str :=
  match process_leaf_events renderer chapter_name chapter_path (parse content) with
  | .error err => .error err
  | .ok events =>
    match serialize events with
    | .error msg => .error (Err.SerializationFailed msg)
    | .ok out => .ok out

/-- Model of `mdbook::BookItem` restricted to what the preprocessor
distinguishes: chapters (name, raw content, source path, sub items)
and non-chapter entries (separators / part titles), which pass through
untouched (`process_section`, line 100). -/
inductive BookItem where
  | Chapter (name : Str) (content : Str) (path : Str) (sub_items : List BookItem)
  | Separator

/-- Modelled `PathBuf::pop` (line 73): the path with its final
`/`-separated segment removed. -/
def pop_path (p : Str) : Str :=
  ((p.reverse.dropWhile (fun c => c != '/')).drop 1).reverse

mutual

/-- Model of `Graphviz::process_section` (lines 64–102): a chapter's
own content is processed first; only on success are its sub items
processed (with the same operation) and reattached; identity fields
are kept.  A non-chapter item passes through. -/
def process_section (renderer : Renderer) (parse : Parse) (serialize : Serialize)
    (src_dir : Str) : BookItem → Except Err BookItem
  | BookItem.Chapter name content path subs =>
    match process_leaf_chapter renderer parse serialize name
        (pop_path (pathJoin src_dir path)) content with
    | .error err => .error err
    | .ok content' =>
      match process_sub_items renderer parse serialize src_dir subs with
      | .error err => .error err
      | .ok subs' => .ok (BookItem.Chapter name content' path subs')
  | BookItem.Separator => .ok BookItem.Separator

/-- Model of `Graphviz::process_sub_items` (lines 105–118): process
every item and collect positionally, propagating the first error. -/
def process_sub_items (renderer : Renderer) (parse : Parse) (serialize : Serialize)
    (src_dir : Str) : List BookItem → Except Err (List BookItem)
  | [] => .ok []
  | item :: rest =>
    match process_section renderer parse serialize src_dir item with
    | .error err => .error err
    | .ok item' =>
      match process_sub_items renderer parse serialize src_dir rest with
      | .error err => .error err
      | .ok rest' => .ok (item' :: rest')

end

/-- Model of `mdbook::book::Book`, restricted to its sections. -/
structure Book where
  sections : List BookItem

/-- Model of `Graphviz::run` (lines 28–47): process every top-level
section, collect positionally, and return the processed book only if
every section succeeded. -/
def Graphviz.run (renderer : Renderer) (parse : Parse) (serialize : Serialize)
    (src_dir : Str) (book : Book) : Except Err Book :=
  match process_sub_items renderer parse serialize src_dir book.sections with
  | .error err => .error err
  | .ok sections => .ok { sections := sections }

/-- Source constant `MAX_SPAWN_RETRIES` (`src/renderer.rs` line 12). -/
def MAX_SPAWN_RETRIES : Nat := 5

/-- Observable actions of `CommandLineGraphviz::spawn_backoff`: spawn
attempts (tagged with the loop counter) and sleeps (milliseconds). -/
inductive SpawnAction where
  | attempt (n : Nat)
  | sleep (ms : Nat)
deriving DecidableEq

/-- The loop body of `spawn_backoff` (`src/renderer.rs` lines 61–80),
with the success of each attempt decided by the oracle `spawnOk` and
the iteration count made structural: `for backoff in 1..=5` is the call
with `backoff = 1` and fuel `MAX_SPAWN_RETRIES`.  A successful attempt
returns immediately; a failed attempt sleeps `backoff^2 * 10`
milliseconds and continues; an exhausted loop returns the timed-out
error the spec calls `SpawnExhausted` (lines 82–85). -/
def spawn_loop (spawnOk : Nat → Bool) (backoff : Nat) :
    Nat → List SpawnAction × Except Err Unit
  | 0 => ([], .error Err.SpawnExhausted)
  | fuel + 1 =>
    if spawnOk backoff then ([SpawnAction.attempt backoff], .ok ())
    else
      let sleep_time := backoff ^ 2 * 10
      let r := spawn_loop spawnOk (backoff + 1) fuel
      (SpawnAction.attempt backoff :: SpawnAction.sleep sleep_time :: r.1, r.2)

/-- Model of `CommandLineGraphviz::spawn_backoff` (lines 60–86). -/
def spawn_backoff (spawnOk : Nat → Bool) : List SpawnAction × Except Err Unit :=
  spawn_loop spawnOk 1 MAX_SPAWN_RETRIES

/-- Number of spawn attempts in a trace. -/
def attemptCount (tr : List SpawnAction) : Nat :=
  (tr.filter fun a =>
    match a with
    | SpawnAction.attempt _ => true
    | SpawnAction.sleep _ => false).length

/-- The artifact base name formula of `GraphvizBlockBuilder::build`,
abstracted over its inputs. -/
def expected_image_name (chapter_name graph_name : Str) (index : Nat) : Str :=
  if graph_name ≠ [] then
    normalize_id chapter_name ++ '_' :: normalize_id graph_name ++ '_' ::
      (natStr index ++ ".generated".toList)
  else
    normalize_id chapter_name ++ '_' :: (natStr index ++ ".generated".toList)

/-- Invariant of the scan state: any open builder was created for this
chapter, so carries the trimmed chapter name. -/
def BuilderInv (cn : Str) (ob : Option GraphvizBlockBuilder) : Prop :=
  ∀ b, ob = some b → b.chapter_name = rustTrim cn

/-- Recognizes an image-open event. -/
def isImageStart : Event → Bool
  | Event.Start (Tag.Image _ _ _) => true
  | _ => false

/-- Recognizes an image-close event. -/
def isImageEnd : Event → Bool
  | Event.End (Tag.Image _ _ _) => true
  | _ => false

/-- The events strictly between the first image-open event and the
following image-close event: when serialized, their text is the image's
display/alt text. -/
def image_inner_events (es : List Event) : List Event :=
  ((es.dropWhile fun e => !isImageStart e).drop 1).takeWhile fun e => !isImageEnd e

/-- Renderer oracle that always succeeds. -/
def okRenderer : Renderer := fun _ _ => .ok ()

/-- Renderer oracle that always fails. -/
def boomRenderer : Renderer := fun _ _ => .error (Err.RenderFailed ("boom".toList))

/-- Parser oracle producing one trigger-tagged empty code block. -/
def parseTrigger : Parse := fun _ =>
  [Event.Start (Tag.CodeBlock INFO_STRING_TRIGGER), Event.End (Tag.CodeBlock INFO_STRING_TRIGGER)]

/-- Serializer oracle that always succeeds with empty content. -/
def serializeEmpty : Serialize := fun _ => .ok []

/-- Event stream of one trigger-tagged code block with body `x`. -/
def sampleTriggerEvents : List Event :=
  [Event.Start (Tag.CodeBlock INFO_STRING_TRIGGER), Event.Text ("x".toList),
   Event.End (Tag.CodeBlock INFO_STRING_TRIGGER)]

/-- The block `sampleTriggerEvents` finalizes for chapter name
`Test Chapter` and path `./`. -/
def sampleBlock : GraphvizBlock :=
  { graph_name := [], image_name := "test_chapter_0.generated".toList,
    code := "x".toList, chapter_path := "./".toList }

/-- The actions of the `sampleTriggerEvents` scan for chapter name
`Test Chapter`. -/
def sampleActions : List Action := [Action.emit [], Action.emit [], Action.render sampleBlock]

/-- The block `sampleTriggerEvents` finalizes for the untrimmed chapter
name `" A"` and path `p`. -/
def untrimmedBlock : GraphvizBlock :=
  { graph_name := [], image_name := "a_0.generated".toList, code := "x".toList,
    chapter_path := "p".toList }

/-- A finalized block with a non-empty graph name. -/
def namedSampleBlock : GraphvizBlock :=
  { graph_name := "G".toList, image_name := "n".toList, code := [], chapter_path := [] }

/-- A scan state with an open builder. -/
def insideState : ScanState :=
  { builder := some (GraphvizBlockBuilder.new INFO_STRING_TRIGGER ("c".toList) ("p".toList)),
    image_index := 0 }

/-- The output of transforming the witness chapter below. -/
def witnessOut : BookItem :=
  BookItem.Chapter ("c".toList) [] ("ch.md".toList) [BookItem.Separator]

/-- Lowercasing an ASCII uppercase letter adds 0x20 to its codepoint. -/
lemma toNat_lower_of_upper (c : Char) (h1 : 0x41 ≤ c.toNat) (h2 : c.toNat ≤ 0x5A) :
    (rustToAsciiLowercase c).toNat = c.toNat + 0x20 := by
  have hb : between 0x41 c.toNat 0x5A = true := by simp [between]; omega
  rw [rustToAsciiLowercase, if_pos hb]
  generalize c.toNat = n at *
  interval_cases n <;> decide

/-- `rustToAsciiLowercase` fixes every character outside `A`–`Z`. -/
lemma lower_eq_self_of_not_upper (c : Char) (h : ¬ (0x41 ≤ c.toNat ∧ c.toNat ≤ 0x5A)) :
    rustToAsciiLowercase c = c := by
  rw [rustToAsciiLowercase, if_neg]
  simp only [between, decide_eq_true_eq]
  omega

/-- Characters produced by `normChar` are fixed points of `normChar`. -/
lemma normChar_norm (a c : Char) (h : normChar a = some c) : normChar c = some c := by
  by_cases ha : rustIsAlphanumeric a = true
  · rw [normChar, if_pos ha] at h
    injection h with h
    subst h
    by_cases hu : 0x41 ≤ a.toNat ∧ a.toNat ≤ 0x5A
    · have ht := toNat_lower_of_upper a hu.1 hu.2
      have halnum : rustIsAlphanumeric (rustToAsciiLowercase a) = true := by
        simp only [rustIsAlphanumeric, between, Bool.or_eq_true, decide_eq_true_eq]
        omega
      have hfix : rustToAsciiLowercase (rustToAsciiLowercase a) = rustToAsciiLowercase a := by
        apply lower_eq_self_of_not_upper
        omega
      rw [normChar, if_pos halnum, hfix]
    · rw [lower_eq_self_of_not_upper a hu, normChar, if_pos ha,
        lower_eq_self_of_not_upper a hu]
  · rw [normChar, if_neg ha] at h
    by_cases hw : (rustIsWhitespace a || a == '_' || a == '-') = true
    · rw [if_pos hw] at h
      injection h with h
      subst h
      decide
    · rw [if_neg hw] at h
      exact absurd h (by simp)

/-- On ASCII input characters, `normChar` only produces characters in
`[a-z0-9_]`. -/
lemma normChar_safe (a c : Char) (ha : a.toNat < 128) (h : normChar a = some c) :
    isOutputSafe c = true := by
  by_cases hal : rustIsAlphanumeric a = true
  · rw [normChar, if_pos hal] at h
    injection h with h
    subst h
    have hr : (0x30 ≤ a.toNat ∧ a.toNat ≤ 0x39) ∨ (0x41 ≤ a.toNat ∧ a.toNat ≤ 0x5A)
        ∨ (0x61 ≤ a.toNat ∧ a.toNat ≤ 0x7A) := by
      simp only [rustIsAlphanumeric, between, Bool.or_eq_true, decide_eq_true_eq] at hal
      omega
    by_cases hu : 0x41 ≤ a.toNat ∧ a.toNat ≤ 0x5A
    · have ht := toNat_lower_of_upper a hu.1 hu.2
      simp only [isOutputSafe, between, Bool.or_eq_true, decide_eq_true_eq]
      omega
    · rw [lower_eq_self_of_not_upper a hu]
      simp only [isOutputSafe, between, Bool.or_eq_true, decide_eq_true_eq]
      omega
  · rw [normChar, if_neg hal] at h
    by_cases hw : (rustIsWhitespace a || a == '_' || a == '-') = true
    · rw [if_pos hw] at h
      injection h with h
      subst h
      decide
    · rw [if_neg hw] at h
      exact absurd h (by simp)

/-- The image name of a built block is the expected formula of the
builder's stored (trimmed) chapter name, graph name and index. -/
lemma build_image_name (b : GraphvizBlockBuilder) (i : Nat) :
    (b.build i).image_name = expected_image_name b.chapter_name b.graph_name i := rfl

/-- Building preserves the graph name. -/
lemma build_graph_name (b : GraphvizBlockBuilder) (i : Nat) :
    (b.build i).graph_name = b.graph_name := rfl

/-- Echo actions contribute no blocks. -/
lemma blocksOf_emit (es : List Event) (acts : List Action) :
    blocksOf (Action.emit es :: acts) = blocksOf acts := rfl

/-- Render actions contribute their block. -/
lemma blocksOf_render (b : GraphvizBlock) (acts : List Action) :
    blocksOf (Action.render b :: acts) = b :: blocksOf acts := rfl

/-- Case analysis of one scan step: a successful step either emits
(leaving the index unchanged and preserving the builder invariant) or
finalizes the open builder into a block named by the expected formula
at the current index, incrementing the index. -/
lemma scanStep_spec (cn p : Str) {st st' : ScanState} {e : Event} {a : Action}
    (hinv : BuilderInv cn st.builder)
    (h : scanStep cn p st e = .ok (st', a)) :
    BuilderInv cn st'.builder ∧
    (((∃ es, a = Action.emit es) ∧ st'.image_index = st.image_index) ∨
     (∃ b, a = Action.render b ∧ st'.image_index = st.image_index + 1 ∧
       b.image_name = expected_image_name (rustTrim cn) b.graph_name st.image_index ∧
       st'.builder = none)) := by
  cases hb : st.builder with
  | some bld =>
    have hcn : bld.chapter_name = rustTrim cn := hinv bld hb
    cases e with
    | Text t =>
      simp only [scanStep, hb] at h
      obtain ⟨rfl, rfl⟩ := h
      refine ⟨?_, Or.inl ⟨⟨[], rfl⟩, rfl⟩⟩
      intro b hb'
      simp only [Option.some.injEq] at hb'
      subst hb'
      simpa [GraphvizBlockBuilder.append_code] using hcn
    | End t =>
      cases t with
      | CodeBlock info =>
        by_cases hpre : INFO_STRING_TRIGGER.isPrefixOf info
        · simp only [scanStep, hb, hpre, if_pos] at h
          obtain ⟨rfl, rfl⟩ := h
          refine ⟨?_, Or.inr ⟨bld.build st.image_index, rfl, rfl, ?_, rfl⟩⟩
          · intro b hb'
            exact absurd hb' (by simp)
          · rw [build_image_name, build_graph_name, hcn]
        · simp [scanStep, hb, hpre] at h
      | Image l dst ti =>
        simp only [scanStep, hb] at h
        obtain ⟨rfl, rfl⟩ := h
        exact ⟨fun b hb' => hinv b (hb ▸ hb'), Or.inl ⟨⟨_, rfl⟩, rfl⟩⟩
      | Other i =>
        simp only [scanStep, hb] at h
        obtain ⟨rfl, rfl⟩ := h
        exact ⟨fun b hb' => hinv b (hb ▸ hb'), Or.inl ⟨⟨_, rfl⟩, rfl⟩⟩
    | Start t =>
      simp only [scanStep, hb] at h
      obtain ⟨rfl, rfl⟩ := h
      exact ⟨fun b hb' => hinv b (hb ▸ hb'), Or.inl ⟨⟨_, rfl⟩, rfl⟩⟩
    | Other i =>
      simp only [scanStep, hb] at h
      obtain ⟨rfl, rfl⟩ := h
      exact ⟨fun b hb' => hinv b (hb ▸ hb'), Or.inl ⟨⟨_, rfl⟩, rfl⟩⟩
  | none =>
    cases e with
    | Start t =>
      cases t with
      | CodeBlock info =>
        by_cases hpre : INFO_STRING_TRIGGER.isPrefixOf info
        · simp only [scanStep, hb, hpre, if_pos] at h
          obtain ⟨rfl, rfl⟩ := h
          refine ⟨?_, Or.inl ⟨⟨[], rfl⟩, rfl⟩⟩
          intro b hb'
          simp only [Option.some.injEq] at hb'
          subst hb'
          rfl
        · simp only [scanStep, hb, hpre, if_neg] at h
          obtain ⟨rfl, rfl⟩ := h
          exact ⟨fun b hb' => hinv b (hb ▸ hb'), Or.inl ⟨⟨_, rfl⟩, rfl⟩⟩
      | Image l dst ti =>
        simp only [scanStep, hb] at h
        obtain ⟨rfl, rfl⟩ := h
        exact ⟨fun b hb' => hinv b (hb ▸ hb'), Or.inl ⟨⟨_, rfl⟩, rfl⟩⟩
      | Other i =>
        simp only [scanStep, hb] at h
        obtain ⟨rfl, rfl⟩ := h
        exact ⟨fun b hb' => hinv b (hb ▸ hb'), Or.inl ⟨⟨_, rfl⟩, rfl⟩⟩
    | End t =>
      simp only [scanStep, hb] at h
      obtain ⟨rfl, rfl⟩ := h
      exact ⟨fun b hb' => hinv b (hb ▸ hb'), Or.inl ⟨⟨_, rfl⟩, rfl⟩⟩
    | Text s =>
      simp only [scanStep, hb] at h
      obtain ⟨rfl, rfl⟩ := h
      exact ⟨fun b hb' => hinv b (hb ▸ hb'), Or.inl ⟨⟨_, rfl⟩, rfl⟩⟩
    | Other i =>
      simp only [scanStep, hb] at h
      obtain ⟨rfl, rfl⟩ := h
      exact ⟨fun b hb' => hinv b (hb ▸ hb'), Or.inl ⟨⟨_, rfl⟩, rfl⟩⟩

/-- Along any successful scan, the block at position `k` of the
finalized-block list is named by the expected formula at index
`image_index + k`. -/
lemma scanEvents_block_names (cn p : Str) (es : List Event) :
    ∀ (st : ScanState) (acts : List Action),
      BuilderInv cn st.builder →
      scanEvents cn p es st = .ok acts →
      ∀ k b, (blocksOf acts).get? k = some b →
        b.image_name = expected_image_name (rustTrim cn) b.graph_name (st.image_index + k) := by
  induction es with
  | nil =>
    intro st acts hinv h k b hb
    simp only [scanEvents, Except.ok.injEq] at h
    subst h
    simp [blocksOf] at hb
  | cons e rest ih =>
    intro st acts hinv h k b hb
    simp only [scanEvents] at h
    cases hs : scanStep cn p st e with
    | error err => rw [hs] at h; simp at h
    | ok pair =>
      obtain ⟨st', a⟩ := pair
      rw [hs] at h
      dsimp only at h
      cases hr : scanEvents cn p rest st' with
      | error err => rw [hr] at h; simp at h
      | ok acts' =>
        rw [hr] at h
        simp only [Except.ok.injEq] at h
        subst h
        obtain ⟨hinv', hcase⟩ := scanStep_spec cn p hinv hs
        rcases hcase with ⟨⟨es', rfl⟩, hidx⟩ | ⟨bb, rfl, hidx, hname, _⟩
        · rw [blocksOf_emit] at hb
          have := ih st' acts' hinv' hr k b hb
          rwa [hidx] at this
        · rw [blocksOf_render] at hb
          cases k with
          | zero =>
            simp only [List.get?_cons_zero, Option.some.injEq] at hb
            subst hb
            simpa using hname
          | succ k =>
            simp only [List.get?_cons_succ] at hb
            have := ih st' acts' hinv' hr k b hb
            rw [hidx] at this
            have harith : st.image_index + 1 + k = st.image_index + (k + 1) := by omega
            rwa [harith] at this

/-- A failing item makes `process_sub_items` fail wherever it occurs in
the list. -/
lemma process_sub_items_error (renderer : Renderer) (parse : Parse) (serialize : Serialize)
    (src_dir : Str) (item : BookItem) (e : Err)
    (h : process_section renderer parse serialize src_dir item = .error e) :
    ∀ pre post, ∃ e2,
      process_sub_items renderer parse serialize src_dir (pre ++ item :: post) = .error e2 := by
  intro pre
  induction pre with
  | nil =>
    intro post
    exact ⟨e, by simp [process_sub_items, h]⟩
  | cons x rest ih =>
    intro post
    obtain ⟨e2, he2⟩ := ih post
    cases hx : process_section renderer parse serialize src_dir x with
    | error e3 => exact ⟨e3, by simp [process_sub_items, hx]⟩
    | ok x' => exact ⟨e2, by simp [process_sub_items, hx, he2]⟩

/-- A successful `process_sub_items` maps the input list positionally:
the output has the same length and its `i`-th entry is the successful
transformation of the input's `i`-th entry. -/
lemma process_sub_items_pointwise (renderer : Renderer) (parse : Parse) (serialize : Serialize)
    (src_dir : Str) :
    ∀ (items out : List BookItem),
      process_sub_items renderer parse serialize src_dir items = .ok out →
      out.length = items.length ∧
      ∀ i x, items.get? i = some x → ∃ y, out.get? i = some y ∧
        process_section renderer parse serialize src_dir x = .ok y := by
  intro items
  induction items with
  | nil =>
    intro out h
    simp only [process_sub_items, Except.ok.injEq] at h
    subst h
    exact ⟨rfl, by simp⟩
  | cons x rest ih =>
    intro out h
    simp only [process_sub_items] at h
    cases hx : process_section renderer parse serialize src_dir x with
    | error e => rw [hx] at h; simp at h
    | ok x' =>
      rw [hx] at h
      dsimp only at h
      cases hrest : process_sub_items renderer parse serialize src_dir rest with
      | error e => rw [hrest] at h; simp at h
      | ok rest' =>
        rw [hrest] at h
        simp only [Except.ok.injEq] at h
        subst h
        obtain ⟨hlen, hp⟩ := ih rest' hrest
        refine ⟨by simp [hlen], ?_⟩
        intro i y hy
        cases i with
        | zero =>
          simp only [List.get?_cons_zero, Option.some.injEq] at hy
          subst hy
          exact ⟨x', by simp, hx⟩
        | succ i =>
          simp only [List.get?_cons_succ] at hy ⊢
          exact hp i y hy

end MdGraphviz

namespace MdGraphviz

/-- Claim C1 (amended: the source trims the chapter name before
normalizing it — `GraphvizBlockBuilder::new` stores `chapter_name.trim()`
— so the base name uses `normalize(trim(chapter_name))`, not
`normalize(chapter_name)`): for a chapter scan started fresh (index 0,
no open builder), the block at position `k` of the finalized-block
list, ordered by closing events, is assigned the artifact base name
`normalize(trim(chapter_name))_{normalize(graph_name)}_{k}.generated`
when a graph name was supplied and
`normalize(trim(chapter_name))_{k}.generated` otherwise; indices start
at 0 and reset per chapter because every chapter scan starts at
index 0. -/
theorem block_names_indexed_in_close_order (cn p : Str) (es : List Event)
    (acts : List Action) (h : scanEvents cn p es { builder := none, image_index := 0 } = .ok acts)
    (k : Nat) (b : GraphvizBlock) (hb : (blocksOf acts).get? k = some b) :
    b.image_name = expected_image_name (rustTrim cn) b.graph_name k := by
  have := scanEvents_block_names cn p es { builder := none, image_index := 0 } acts
    (fun b hb' => Option.noConfusion hb') h k b hb
  simpa using this

/-- Witness for C1 at a concrete chapter. -/
theorem block_names_indexed_in_close_order_witness :
    sampleBlock.image_name
      = expected_image_name (rustTrim ("Test Chapter".toList)) sampleBlock.graph_name 0 :=
  block_names_indexed_in_close_order ("Test Chapter".toList) ("./".toList)
    sampleTriggerEvents sampleActions (by decide) 0 sampleBlock (by decide)

/-- Counterexample to C1 as stated: for the chapter name `" A"` the
scan produces the base name `a_0.generated` (from the trimmed name),
which differs from the claimed `normalize(chapter_name)_0.generated` =
`_a_0.generated`. -/
theorem block_name_not_untrimmed_cex :
    scanEvents (" A".toList) ("p".toList) sampleTriggerEvents
        { builder := none, image_index := 0 }
      = .ok [Action.emit [], Action.emit [], Action.render untrimmedBlock] ∧
    untrimmedBlock.image_name
      ≠ normalize_id (" A".toList) ++ '_' :: (natStr 0 ++ ".generated".toList) :=
  ⟨by decide, by decide⟩

/-- Claim C2 (amended: guaranteed only for ASCII input; a non-ASCII
alphanumeric character — which Rust's Unicode-aware
`char::is_alphanumeric` accepts and its ASCII-only
`to_ascii_lowercase` does not change — passes through, so the output
can leave `[a-z0-9_]`): for input of ASCII characters, `normalize_id`
maps alphanumerics to lowercase, whitespace, `_` and `-` to `_`, drops
everything else, and thus emits only characters in `[a-z0-9_]`. -/
theorem normalize_ascii_output_safe (s : Str) (hs : ∀ c ∈ s, c.toNat < 128) :
    ∀ c ∈ normalize_id s, isOutputSafe c = true := by
  intro c hc
  rw [normalize_id, List.mem_filterMap] at hc
  obtain ⟨a, ha, hna⟩ := hc
  exact normChar_safe a c (hs a ha) hna

/-- Witness for C2 at a concrete ASCII string. -/
theorem normalize_ascii_output_safe_witness : isOutputSafe 'b' = true :=
  normalize_ascii_output_safe ("A b-c!".toList) (by decide) 'b' (by decide)

/-- Counterexample to C2 as stated: `Ä` (U+00C4) is alphanumeric for
Rust, `to_ascii_lowercase` leaves it unchanged, so `normalize_id`
emits it although it is outside `[a-z0-9_]`. -/
theorem normalize_nonascii_unsafe_cex :
    normalize_id ['Ä'] = ['Ä'] ∧ isOutputSafe 'Ä' = false :=
  ⟨by decide, by decide⟩

/-- Claim C3 (amended: the graph name becomes the image's title, not
its display/alt text; no text events are emitted between the image
open and close tags, so the serialized form is
`![](<file_name> "<graph_name_if_present>")` with an empty alt text,
followed by a blank line): a successfully rendered block is replaced
by an inline image open tag whose target is
`{artifact_base_name}.svg` and whose title is the graph name, the
matching close tag, and a text event of two newline characters. -/
theorem tag_events_splice (b : GraphvizBlock) (renderer : Renderer)
    (hr : renderer b.code (pathJoin b.chapter_path b.file_name) = .ok ()) :
    runActions renderer [Action.render b]
      = .ok [Event.Start (Tag.Image LinkType.Inline b.file_name b.graph_name),
          Event.End (Tag.Image LinkType.Inline b.file_name b.graph_name),
          Event.Text ("\n\n".toList)] ∧
    b.file_name = b.image_name ++ ".svg".toList ∧
    image_inner_events b.tag_events = [] := by
  refine ⟨?_, rfl, rfl⟩
  simp [runActions, hr, GraphvizBlock.tag_events, GraphvizBlock.image_tag]

/-- Witness for C3 at a concrete block. -/
theorem tag_events_splice_witness :
    runActions okRenderer [Action.render namedSampleBlock]
      = .ok [Event.Start (Tag.Image LinkType.Inline namedSampleBlock.file_name
            namedSampleBlock.graph_name),
          Event.End (Tag.Image LinkType.Inline namedSampleBlock.file_name
            namedSampleBlock.graph_name),
          Event.Text ("\n\n".toList)] ∧
    namedSampleBlock.file_name = namedSampleBlock.image_name ++ ".svg".toList ∧
    image_inner_events namedSampleBlock.tag_events = [] :=
  tag_events_splice namedSampleBlock okRenderer rfl

/-- Counterexample to C3 as stated: for a block with graph name `G`
there is no text event between the image open and close tags, so the
serialized display/alt text is empty rather than the graph name. -/
theorem image_alt_text_not_graph_name_cex :
    namedSampleBlock.graph_name = "G".toList ∧
    namedSampleBlock.graph_name ≠ [] ∧
    image_inner_events namedSampleBlock.tag_events = [] :=
  ⟨rfl, by decide, rfl⟩

/-- Claim C4 (amended: each sleep follows the failed attempt — the
delay of `n^2 * 10` ms runs after attempt `n` fails, i.e. before
attempt `n + 1`, with no delay before attempt 1 and a final 250 ms
sleep after the fifth failure): at most 5 spawn attempts are made, and
if all 5 attempts fail the trace is attempt 1, sleep 10 ms, attempt 2,
sleep 40 ms, attempt 3, sleep 90 ms, attempt 4, sleep 160 ms,
attempt 5, sleep 250 ms, and the result is the `SpawnExhausted`
error. -/
theorem spawn_retry_policy (spawnOk : Nat → Bool) :
    attemptCount (spawn_backoff spawnOk).1 ≤ MAX_SPAWN_RETRIES ∧
    ((∀ n, 1 ≤ n → n ≤ MAX_SPAWN_RETRIES → spawnOk n = false) →
      spawn_backoff spawnOk
        = ([SpawnAction.attempt 1, SpawnAction.sleep 10, SpawnAction.attempt 2,
            SpawnAction.sleep 40, SpawnAction.attempt 3, SpawnAction.sleep 90,
            SpawnAction.attempt 4, SpawnAction.sleep 160, SpawnAction.attempt 5,
            SpawnAction.sleep 250], .error Err.SpawnExhausted)) := by
  constructor
  · cases h1 : spawnOk 1 <;> cases h2 : spawnOk 2 <;> cases h3 : spawnOk 3 <;>
      cases h4 : spawnOk 4 <;> cases h5 : spawnOk 5 <;>
      simp [spawn_backoff, MAX_SPAWN_RETRIES, spawn_loop, attemptCount, h1, h2, h3, h4, h5]
  · intro hall
    have h1 := hall 1 (by decide) (by decide)
    have h2 := hall 2 (by decide) (by decide)
    have h3 := hall 3 (by decide) (by decide)
    have h4 := hall 4 (by decide) (by decide)
    have h5 := hall 5 (by decide) (by decide)
    simp [spawn_backoff, MAX_SPAWN_RETRIES, spawn_loop, h1, h2, h3, h4, h5]

/-- Witness for C4 with the always-failing oracle. -/
theorem spawn_retry_policy_witness :
    attemptCount (spawn_backoff (fun _ => false)).1 ≤ MAX_SPAWN_RETRIES ∧
    spawn_backoff (fun _ => false)
      = ([SpawnAction.attempt 1, SpawnAction.sleep 10, SpawnAction.attempt 2,
          SpawnAction.sleep 40, SpawnAction.attempt 3, SpawnAction.sleep 90,
          SpawnAction.attempt 4, SpawnAction.sleep 160, SpawnAction.attempt 5,
          SpawnAction.sleep 250], .error Err.SpawnExhausted) :=
  ⟨(spawn_retry_policy (fun _ => false)).1,
   (spawn_retry_policy (fun _ => false)).2 (fun _ _ _ => rfl)⟩

/-- Counterexample to C4 as stated: when attempt 1 fails and attempt 2
succeeds, the only delay before attempt 2 is 10 ms — the sleep after
failed attempt 1 — not the claimed `2^2 * 10 = 40` ms before
attempt 2 (and no 10 ms delay ran before attempt 1). -/
theorem spawn_delay_position_cex :
    spawn_backoff (fun n => n == 2)
      = ([SpawnAction.attempt 1, SpawnAction.sleep 10, SpawnAction.attempt 2], .ok ()) ∧
    (10 : Nat) ≠ 2 ^ 2 * 10 :=
  ⟨by decide, by decide⟩

/-- Claim C5 (amended: while a builder is open, an event that is
neither a text event nor a code-block-end event is not accumulated as
ignorable — it is echoed unchanged into the output event stream, the
`_ => vec![e]` arm at line 158): such events pass through with the
state unchanged. -/
theorem inside_non_text_events_echoed (cn p : Str) (st : ScanState)
    (bld : GraphvizBlockBuilder) (e : Event) (hb : st.builder = some bld)
    (ht : ∀ s, e ≠ Event.Text s) (he : ∀ info, e ≠ Event.End (Tag.CodeBlock info)) :
    scanStep cn p st e = .ok (st, Action.emit [e]) := by
  cases e with
  | Text s => exact absurd rfl (ht s)
  | End t =>
    cases t with
    | CodeBlock info => exact absurd rfl (he info)
    | Image l d ti => simp [scanStep, hb]
    | Other i => simp [scanStep, hb]
  | Start t => simp [scanStep, hb]
  | Other i => simp [scanStep, hb]

/-- Witness for C5 at a concrete opaque event. -/
theorem inside_non_text_events_echoed_witness :
    scanStep ("c".toList) ("p".toList) insideState (Event.Other 7)
      = .ok (insideState, Action.emit [Event.Other 7]) :=
  inside_non_text_events_echoed ("c".toList) ("p".toList) insideState
    (GraphvizBlockBuilder.new INFO_STRING_TRIGGER ("c".toList) ("p".toList)) (Event.Other 7)
    rfl (fun _ h => Event.noConfusion h) (fun _ h => Event.noConfusion h)

/-- Counterexample to C5 as stated: an opaque event inside an open
block appears in the pipeline's output event stream (before the
spliced image reference), so it is echoed, not accumulated as
ignorable. -/
theorem inside_event_not_suppressed_cex :
    process_leaf_events okRenderer ("c".toList) ("p".toList)
      [Event.Start (Tag.CodeBlock INFO_STRING_TRIGGER), Event.Other 7,
       Event.End (Tag.CodeBlock INFO_STRING_TRIGGER)]
      = .ok [Event.Other 7,
          Event.Start (Tag.Image LinkType.Inline ("c_0.generated.svg".toList) []),
          Event.End (Tag.Image LinkType.Inline ("c_0.generated.svg".toList) []),
          Event.Text ("\n\n".toList)] ∧
    Event.Other 7 ∈ [Event.Other 7,
        Event.Start (Tag.Image LinkType.Inline ("c_0.generated.svg".toList) []),
        Event.End (Tag.Image LinkType.Inline ("c_0.generated.svg".toList) []),
        Event.Text ("\n\n".toList)] :=
  ⟨by decide, by decide⟩

/-- Claim C6: every error of a chapter's content transformation aborts
that chapter — the chapter fails with that error for any list of sub
items, which are therefore never descended into — and the run
containing that chapter fails with an error, producing no output
book. -/
theorem errors_abort_node_and_run (renderer : Renderer) (parse : Parse)
    (serialize : Serialize) (src_dir name content path : Str) (e : Err)
    (h : process_leaf_chapter renderer parse serialize name
        (pop_path (pathJoin src_dir path)) content = .error e) :
    (∀ subs, process_section renderer parse serialize src_dir
        (BookItem.Chapter name content path subs) = .error e) ∧
    (∀ pre post subs, ∃ e2, Graphviz.run renderer parse serialize src_dir
        { sections := pre ++ BookItem.Chapter name content path subs :: post }
        = .error e2) := by
  have hsec : ∀ subs, process_section renderer parse serialize src_dir
      (BookItem.Chapter name content path subs) = .error e := by
    intro subs
    simp [process_section, h]
  refine ⟨hsec, ?_⟩
  intro pre post subs
  obtain ⟨e2, he2⟩ := process_sub_items_error renderer parse serialize src_dir
    (BookItem.Chapter name content path subs) e (hsec subs) pre post
  exact ⟨e2, by simp [Graphviz.run, he2]⟩

/-- Witness for C6 with a failing renderer. -/
theorem errors_abort_node_and_run_witness :
    process_section boomRenderer parseTrigger serializeEmpty ("src".toList)
      (BookItem.Chapter ("c".toList) ("x".toList) ("ch.md".toList) [])
      = .error (Err.RenderFailed ("boom".toList)) :=
  (errors_abort_node_and_run boomRenderer parseTrigger serializeEmpty ("src".toList)
    ("c".toList) ("x".toList) ("ch.md".toList) (Err.RenderFailed ("boom".toList))
    (by decide)).1 []

/-- Claim C7: a code-block-end event seen while a builder is open whose
info string does not carry the trigger prefix is treated as the
`MalformedBlock` failure (realized in the source as the `assert_eq!`
panic at lines 140–144, modelled as the `MalformedBlock` error
outcome), not silently ignored; the whole chapter pipeline fails with
it. -/
theorem mismatched_block_end_malformed (cn p : Str) (st : ScanState)
    (bld : GraphvizBlockBuilder) (info : Str) (renderer : Renderer)
    (hb : st.builder = some bld)
    (hm : INFO_STRING_TRIGGER.isPrefixOf info = false) :
    scanStep cn p st (Event.End (Tag.CodeBlock info)) = .error Err.MalformedBlock ∧
    process_leaf_events renderer cn p
      [Event.Start (Tag.CodeBlock INFO_STRING_TRIGGER), Event.End (Tag.CodeBlock info)]
      = .error Err.MalformedBlock := by
  constructor
  · simp [scanStep, hb, hm]
  · have hpre : INFO_STRING_TRIGGER.isPrefixOf INFO_STRING_TRIGGER = true := by decide
    simp [process_leaf_events, scanEvents, scanStep, hpre, hm]

/-- Witness for C7 at a concrete mismatched info string. -/
theorem mismatched_block_end_malformed_witness :
    scanStep ("c".toList) ("p".toList) insideState (Event.End (Tag.CodeBlock ("rust".toList)))
      = .error Err.MalformedBlock ∧
    process_leaf_events okRenderer ("c".toList) ("p".toList)
      [Event.Start (Tag.CodeBlock INFO_STRING_TRIGGER),
       Event.End (Tag.CodeBlock ("rust".toList))]
      = .error Err.MalformedBlock :=
  mismatched_block_end_malformed ("c".toList) ("p".toList) insideState
    (GraphvizBlockBuilder.new INFO_STRING_TRIGGER ("c".toList) ("p".toList))
    ("rust".toList) okRenderer rfl (by decide)

/-- Claim C8: `normalize_id` is idempotent. -/
theorem normalize_idempotent (s : Str) :
    normalize_id (normalize_id s) = normalize_id s := by
  induction s with
  | nil => rfl
  | cons a t ih =>
    simp only [normalize_id, List.filterMap_cons] at ih ⊢
    cases h : normChar a with
    | none => simp only [h, ih]
    | some c => simp only [h, List.filterMap_cons, normChar_norm a c h, ih]

/-- Claim C9: a successful transformation of a chapter keeps its name
and path, changing only its content and sub items, and maps the sub
items positionally — the output's `i`-th sub item is the successful
transformation of the input's `i`-th sub item, so the children's
relative order is preserved. -/
theorem transform_keeps_identity_and_child_order (renderer : Renderer) (parse : Parse)
    (serialize : Serialize) (src_dir name content path : Str) (subs : List BookItem)
    (out : BookItem)
    (h : process_section renderer parse serialize src_dir
        (BookItem.Chapter name content path subs) = .ok out) :
    ∃ content2 subs2, out = BookItem.Chapter name content2 path subs2 ∧
      subs2.length = subs.length ∧
      ∀ i x, subs.get? i = some x → ∃ y, subs2.get? i = some y ∧
        process_section renderer parse serialize src_dir x = .ok y := by
  simp only [process_section] at h
  cases hl : process_leaf_chapter renderer parse serialize name
      (pop_path (pathJoin src_dir path)) content with
  | error e => rw [hl] at h; simp at h
  | ok c2 =>
    rw [hl] at h
    dsimp only at h
    cases hs : process_sub_items renderer parse serialize src_dir subs with
    | error e => rw [hs] at h; simp at h
    | ok subs2 =>
      rw [hs] at h
      simp only [Except.ok.injEq] at h
      subst h
      obtain ⟨hlen, hp⟩ := process_sub_items_pointwise renderer parse serialize src_dir
        subs subs2 hs
      exact ⟨c2, subs2, rfl, hlen, hp⟩

/-- Witness for C9 at a concrete chapter with one sub item. -/
theorem transform_keeps_identity_and_child_order_witness :
    ∃ content2 subs2,
      witnessOut = BookItem.Chapter ("c".toList) content2 ("ch.md".toList) subs2 ∧
      subs2.length = [BookItem.Separator].length ∧
      ∀ i x, [BookItem.Separator].get? i = some x → ∃ y, subs2.get? i = some y ∧
        process_section okRenderer parseTrigger serializeEmpty ("src".toList) x = .ok y :=
  transform_keeps_identity_and_child_order okRenderer parseTrigger serializeEmpty
    ("src".toList) ("c".toList) ("x".toList) ("ch.md".toList) [BookItem.Separator]
    witnessOut
    (by simp [process_section, process_sub_items, process_leaf_chapter, process_leaf_events,
      scanEvents, scanStep, runActions, parseTrigger, serializeEmpty, okRenderer, witnessOut])

/-- Claim C10: an info string that begins with `dot process` but whose
next character is not a single space (or that ends right there) is
still consumed as a trigger: the start event is suppressed, a builder
opens with an empty graph name, text is accumulated, and the closing
event finalizes the block for rendering. -/
theorem trigger_without_space_consumed (info cn p t : Str)
    (hpre : INFO_STRING_TRIGGER.isPrefixOf info = true)
    (hsp : info.get? INFO_STRING_TRIGGER.length ≠ some ' ') :
    (GraphvizBlockBuilder.new info cn p).graph_name = [] ∧
    scanEvents cn p
        [Event.Start (Tag.CodeBlock info), Event.Text t, Event.End (Tag.CodeBlock info)]
        { builder := none, image_index := 0 }
      = .ok [Action.emit [], Action.emit [],
          Action.render (((GraphvizBlockBuilder.new info cn p).append_code t).build 0)] := by
  constructor
  · have hsp2 : ¬ (info[INFO_STRING_TRIGGER.length]? = some ' ') := by
      simpa [List.get?_eq_getElem?] using hsp
    simp [GraphvizBlockBuilder.new, hsp2]
  · simp [scanEvents, scanStep, hpre, GraphvizBlockBuilder.append_code]

/-- Witness for C10 at the info string `dot processing`. -/
theorem trigger_without_space_consumed_witness :
    (GraphvizBlockBuilder.new ("dot processing".toList) ("c".toList) ("p".toList)).graph_name
      = [] ∧
    scanEvents ("c".toList) ("p".toList)
        [Event.Start (Tag.CodeBlock ("dot processing".toList)), Event.Text ("x".toList),
         Event.End (Tag.CodeBlock ("dot processing".toList))]
        { builder := none, image_index := 0 }
      = .ok [Action.emit [], Action.emit [],
          Action.render (((GraphvizBlockBuilder.new ("dot processing".toList) ("c".toList)
            ("p".toList)).append_code ("x".toList)).build 0)] :=
  trigger_without_space_consumed ("dot processing".toList) ("c".toList) ("p".toList)
    ("x".toList) (by decide) (by decide)

end MdGraphviz
